import Mathlib

/-!
Shallow embedding of the todo-app core: the Todo entity model
(src/js/models/Todo.js), the TodoList collection, the StorageService load
path (src/js/services/StorageService.js) and the parseTags helper
(src/js/utils/helpers.js).

JavaScript strings are modelled as Lean String, nullable/undefinable
values as Option, records with optional keys as structures of Option
fields.  The ambient clock (new Date().toISOString()) and the generated id
are passed as explicit arguments.  Date parsing (new Date(s).getTime()) is
a platform builtin, so it is passed as an explicit parameter
pd : String -> Option Int, none standing for NaN; parseISODate below
instantiates it for plain YYYY-MM-DD strings the way the builtin does
(UTC midnight, milliseconds since the epoch).
-/

namespace TodoApp

/-- A record of optional fields, as passed to the Todo constructor and to
Todo.update.  A some value means the key is present in the JS object; for
the nullable date fields the inner Option is the value itself (null is
none). -/
structure Fields where
  id : Option String := none
  title : Option String := none
  description : Option String := none
  completed : Option Bool := none
  priority : Option String := none
  dueDate : Option (Option String) := none
  categories : Option (List String) := none
  tags : Option (List String) := none
  createdAt : Option String := none
  updatedAt : Option String := none
  completedAt : Option (Option String) := none

/-- The Todo entity (src/js/models/Todo.js). -/
structure Todo where
  id : String
  title : String
  description : String
  completed : Bool
  priority : String
  dueDate : Option String
  categories : List String
  tags : List String
  createdAt : String
  updatedAt : String
  completedAt : Option String
  deriving DecidableEq, Repr

/-- JS x || d for string-valued fields: a missing key and the empty
string (falsy) both fall back to the default. -/
def orDefault (v : Option String) (d : String) : String :=
  match v with
  | some s => if s = "" then d else s
  | none => d

/-- JS x || null for the nullable string fields (a present empty string is
falsy and degrades to null). -/
def orNull (v : Option (Option String)) : Option String :=
  match v with
  | some (some s) => if s = "" then none else some s
  | _ => none

/-- Todo.constructor (Todo.js lines 6-18).  genId stands for
this.generateId() and now for new Date().toISOString(). -/
def Todo.construct (data : Fields) (genId now : String) : Todo where
  id := orDefault data.id genId
  title := orDefault data.title ""
  description := orDefault data.description ""
  completed := data.completed.getD false
  priority := orDefault data.priority "medium"
  dueDate := orNull data.dueDate
  categories := data.categories.getD []
  tags := data.tags.getD []
  createdAt := orDefault data.createdAt now
  updatedAt := orDefault data.updatedAt now
  completedAt := orNull data.completedAt

/-- Todo.toggleComplete (Todo.js lines 31-35). -/
def Todo.toggleComplete (t : Todo) (now : String) : Todo :=
  let c := !t.completed
  { t with
    completed := c,
    completedAt := if c then some now else none,
    updatedAt := now }

/-- Todo.update (Todo.js lines 41-46): Object.assign of every present key
except id and createdAt, then updatedAt := now (assigned after the copy,
so a supplied updatedAt is overwritten). -/
def Todo.update (t : Todo) (data : Fields) (now : String) : Todo :=
  { t with
    title := data.title.getD t.title,
    description := data.description.getD t.description,
    completed := data.completed.getD t.completed,
    priority := data.priority.getD t.priority,
    dueDate := data.dueDate.getD t.dueDate,
    categories := data.categories.getD t.categories,
    tags := data.tags.getD t.tags,
    updatedAt := now,
    completedAt := data.completedAt.getD t.completedAt }

/-- JS String.prototype.trim on the code point list: strip leading and
trailing whitespace. -/
def trimChars (l : List Char) : List Char :=
  ((l.dropWhile Char.isWhitespace).reverse.dropWhile Char.isWhitespace).reverse

/-- JS String.prototype.trim. -/
def jsTrim (s : String) : String := String.mk (trimChars s.toList)

/-- Todo.validate (Todo.js lines 100-123): the ordered list of error
messages; isValid is errors.isEmpty.  pd models new Date(s).getTime(),
none standing for NaN. -/
def Todo.validate (pd : String → Option Int) (t : Todo) : List String :=
  (if t.title = "" ∨ jsTrim t.title = "" then ["タイトルは必須です"] else []) ++
  (if t.title.length > 200 then ["タイトルは200文字以内にしてください"] else []) ++
  (if t.priority = "high" ∨ t.priority = "medium" ∨ t.priority = "low" then []
   else ["優先度が無効です"]) ++
  (match t.dueDate with
   | some s => if s ≠ "" ∧ (pd s).isNone then ["期限の日付が無効です"] else []
   | none => [])

/-- The completedAt/completed invariant of the spec data model: completedAt
is non-null exactly when completed is true. -/
def completedInv (t : Todo) : Prop := t.completedAt.isSome = t.completed

/-- JS String.prototype.startsWith, on the code point lists. -/
def jsStartsWith (s p : String) : Bool := p.toList.isPrefixOf s.toList

/-- JS String.prototype.includes, on the code point lists. -/
def jsIncludes (hay needle : String) : Bool :=
  decide (List.IsInfix needle.toList hay.toList)

/-- JS String.prototype.toLowerCase (ASCII range, as Char.toLower). -/
def jsToLower (s : String) : String := s.map Char.toLower

/-- A separator character of parseTags, the regex class of comma and
whitespace. -/
def isTagSep (c : Char) : Bool := c = ',' || c.isWhitespace

/-- The chunks between separator characters.  Chunks at the boundaries or
between adjacent separators may be empty; JS String.split on the
one-or-more separator regex yields empty strings only at the boundaries,
and in both readings every empty chunk is removed by the length filter in
parseTags. -/
def splitChunks : List Char → List (List Char)
  | [] => [[]]
  | c :: cs =>
    let acc := splitChunks cs
    if isTagSep c then [] :: acc
    else
      match acc with
      | [] => [[c]]
      | chunk :: more => (c :: chunk) :: more

/-- parseTags (src/js/utils/helpers.js lines 134-142). -/
def parseTags (tagString : String) : List String :=
  if tagString = "" then []
  else
    (((splitChunks tagString.toList).map
        (fun chunk => String.mk (trimChars chunk))).filter
      (fun tag => tag.length > 0)).map
      (fun tag => if jsStartsWith tag "#" then tag else "#" ++ tag)

/-- A JSON value, for the StorageService.load model. -/
inductive JVal
  | jnull
  | jbool (b : Bool)
  | jnum (n : Int)
  | jstr (s : String)
  | jarr (elems : List JVal)
  | jobj (fields : List (String × JVal))

/-- JS truthiness of a JSON.parse result. -/
def JVal.truthy : JVal → Bool
  | .jnull => false
  | .jbool b => b
  | .jnum n => n != 0
  | .jstr s => s != ""
  | .jarr _ => true
  | .jobj _ => true

/-- typeof v === "object" for a JSON.parse result (null and arrays are
objects too). -/
def JVal.typeofObject : JVal → Bool
  | .jnull => true
  | .jarr _ => true
  | .jobj _ => true
  | _ => false

/-- Property access v.name, undefined modelled as none (a JSON array has
no named property of interest here). -/
def JVal.getProp : JVal → String → Option JVal
  | .jobj fields, name => (fields.find? (fun f => f.fst = name)).map Prod.snd
  | _, _ => none

/-- What localStorage.getItem plus JSON.parse can yield for the fixed key:
the key absent (or holding the empty string, both falsy), a stored value
on which JSON.parse throws, or a parsed JSON value. -/
inductive StoredData
  | absent
  | malformed
  | parsed (v : JVal)

/-- StorageService.load (StorageService.js lines 15-40).  The try/catch
around JSON.parse is the malformed case; the version-mismatch branch only
logs and falls through.  The function is total: no input raises. -/
def StorageService.load (store : StoredData) : List JVal :=
  match store with
  | .absent => []
  | .malformed => []
  | .parsed v =>
    if !v.truthy || !v.typeofObject then []
    else
      match v.getProp "todos" with
      | some (.jarr todos) => todos
      | _ => []

/-- The TodoList state: the in-memory array this.todos and the snapshot
last written through the storage service (toJSON copies every field, so
the persisted records are the todos themselves). -/
structure TodoListState where
  todos : List Todo
  stored : List Todo
  deriving Repr

/-- TodoList.save: storageService.save(this.todos.map(toJSON)). -/
def TodoListState.save (st : TodoListState) : TodoListState :=
  { st with stored := st.todos }

/-- TodoList.findById (lines 105-107). -/
def TodoListState.findById (st : TodoListState) (id : String) : Option Todo :=
  st.todos.find? (fun t => t.id == id)

/-- TodoList.add (lines 36-47). -/
def TodoListState.add (pd : String → Option Int) (st : TodoListState)
    (todoData : Fields) (genId now : String) : TodoListState × Except String Todo :=
  if (Todo.validate pd (Todo.construct todoData genId now)).isEmpty then
    (({ st with todos := st.todos ++ [Todo.construct todoData genId now] }).save,
     .ok (Todo.construct todoData genId now))
  else
    (st, .error (String.intercalate ", "
      (Todo.validate pd (Todo.construct todoData genId now))))

/-- In-place mutation of the first list element matching p (the JS find
followed by mutating the found object): the new list and the mutated
element. -/
def updateFirst (p : Todo → Bool) (f : Todo → Todo) : List Todo → List Todo × Option Todo
  | [] => ([], none)
  | t :: ts =>
    if p t then (f t :: ts, some (f t))
    else
      let r := updateFirst p f ts
      (t :: r.fst, r.snd)

/-- TodoList.update (lines 55-68): find, mutate in place, then validate;
on failure the throw leaves the mutated entity in the list (no rollback)
and save is not reached. -/
def TodoListState.update (pd : String → Option Int) (st : TodoListState)
    (id : String) (data : Fields) (now : String) :
    TodoListState × Except String (Option Todo) :=
  match updateFirst (fun t => t.id == id) (fun t => t.update data now) st.todos with
  | (_, none) => (st, .ok none)
  | (todos1, some t1) =>
    if (t1.validate pd).isEmpty then
      (({ st with todos := todos1 }).save, .ok (some t1))
    else
      ({ st with todos := todos1 },
       .error (String.intercalate ", " (t1.validate pd)))

/-- TodoList.delete (lines 75-84): this.todos is replaced by the filtered
array in every case; save runs only when the length changed. -/
def TodoListState.delete (st : TodoListState) (id : String) : TodoListState × Bool :=
  if (st.todos.filter (fun t => t.id != id)).length ≠ st.todos.length then
    (({ st with todos := st.todos.filter (fun t => t.id != id) }).save, true)
  else
    ({ st with todos := st.todos.filter (fun t => t.id != id) }, false)

/-- The filter criteria object (TodoList.filter). -/
structure Criteria where
  status : Option String := none
  priority : Option String := none
  category : Option String := none
  tag : Option String := none
  search : Option String := none

/-- JS truthiness of an optional string criterion: absent and the empty
string are falsy. -/
def present (o : Option String) : Bool :=
  match o with
  | some s => s != ""
  | none => false

/-- The per-todo predicate of TodoList.filter (lines 114-139), one early
return per criterion. -/
def matchesCriteria (criteria : Criteria) (todo : Todo) : Bool :=
  if criteria.status == some "active" && todo.completed then false
  else if criteria.status == some "completed" && !todo.completed then false
  else if present criteria.priority && (some todo.priority != criteria.priority) then false
  else if present criteria.category &&
      !(todo.categories.contains (criteria.category.getD "")) then false
  else if present criteria.tag && !(todo.tags.contains (criteria.tag.getD "")) then false
  else if present criteria.search then
    if !(jsIncludes (jsToLower todo.title) (jsToLower (criteria.search.getD ""))) &&
       !(jsIncludes (jsToLower todo.description) (jsToLower (criteria.search.getD ""))) then
      false
    else true
  else true

/-- TodoList.filter (lines 114-139). -/
def TodoListState.filter (st : TodoListState) (criteria : Criteria) : List Todo :=
  st.todos.filter (matchesCriteria criteria)

/-- The filter contract as the spec words it: every supplied criterion
holds, conjunctively; the search string matches case-insensitively as a
substring of the title or of the description. -/
def satisfiesCriteria (criteria : Criteria) (todo : Todo) : Prop :=
  (criteria.status = some "active" → todo.completed = false) ∧
  (criteria.status = some "completed" → todo.completed = true) ∧
  (∀ p, criteria.priority = some p → todo.priority = p) ∧
  (∀ c, criteria.category = some c → c ∈ todo.categories) ∧
  (∀ g, criteria.tag = some g → g ∈ todo.tags) ∧
  (∀ s, criteria.search = some s →
    jsIncludes (jsToLower todo.title) (jsToLower s) = true ∨
    jsIncludes (jsToLower todo.description) (jsToLower s) = true)

/-- A JS number: a value or NaN; NaN compares false on both sides. -/
inductive JNum
  | nan
  | val (n : Int)
  deriving DecidableEq, Repr

/-- JS < on numbers. -/
def JNum.lt : JNum → JNum → Bool
  | .val a, .val b => a < b
  | _, _ => false

/-- The value a[field] seen by the sort comparator, before or after the
date and priority conversions. -/
inductive SVal
  | num (n : JNum)
  | str (s : String)
  | boolv (b : Bool)
  | nullv
  | arr (elems : List String)
  deriving DecidableEq, Repr

/-- Dynamic property access a[field] on a Todo (TodoList.sort reads
a[field]); an unknown field name is undefined, which behaves below like
null (falsy, and all comparisons false). -/
def Todo.getField (t : Todo) (field : String) : SVal :=
  if field = "id" then .str t.id
  else if field = "title" then .str t.title
  else if field = "description" then .str t.description
  else if field = "completed" then .boolv t.completed
  else if field = "priority" then .str t.priority
  else if field = "dueDate" then
    match t.dueDate with
    | some s => .str s
    | none => .nullv
  else if field = "categories" then .arr t.categories
  else if field = "tags" then .arr t.tags
  else if field = "createdAt" then .str t.createdAt
  else if field = "updatedAt" then .str t.updatedAt
  else if field = "completedAt" then
    match t.completedAt with
    | some s => .str s
    | none => .nullv
  else .nullv

/-- JS truthiness of a comparator operand. -/
def SVal.truthy : SVal → Bool
  | .num (.val n) => n != 0
  | .num .nan => false
  | .str s => s != ""
  | .boolv b => b
  | .nullv => false
  | .arr _ => true

/-- new Date(v).getTime() for the values the date fields hold (strings;
anything else would be NaN for the shapes that occur here). -/
def toInstant (pd : String → Option Int) : SVal → JNum
  | .str s =>
    match pd s with
    | some n => .val n
    | none => .nan
  | _ => .nan

/-- The date branch of the comparator (TodoList.sort lines 153-156): for
a field name containing At, or equal to dueDate, a truthy value is parsed
to its instant and a falsy one becomes 0. -/
def dateVal (pd : String → Option Int) (field : String) (v : SVal) : SVal :=
  if jsIncludes field "At" || field == "dueDate" then
    (if v.truthy then .num (toInstant pd v) else .num (.val 0))
  else v

/-- The priority branch of the comparator (TodoList.sort lines 159-163):
the priorityOrder lookup with 0 for anything not in the table. -/
def prioVal (field : String) (v : SVal) : SVal :=
  if field == "priority" then
    match v with
    | .str s =>
      .num (.val (if s = "high" then 3 else if s = "medium" then 2
                  else if s = "low" then 1 else 0))
    | _ => .num (.val 0)
  else v

/-- The comparator operand for one element (TodoList.sort lines 149-163). -/
def sortVal (pd : String → Option Int) (field : String) (t : Todo) : SVal :=
  prioVal field (dateVal pd field (t.getField field))

/-- JS < on the comparator operands.  Both operands of one comparison come
from the same field and so have the same shape: numbers with NaN false on
both sides, strings lexicographic, booleans as 0/1, null as 0.  Mixed
shapes and arrays (never produced by the fields this app sorts on) get the
NaN behaviour, false. -/
def svalLt : SVal → SVal → Bool
  | .num a, .num b => a.lt b
  | .str a, .str b => decide (a < b)
  | .boolv a, .boolv b => !a && b
  | _, _ => false

/-- The comparator body of TodoList.sort (lines 165-167). -/
def sortCmp (pd : String → Option Int) (field order : String) (a b : Todo) : Int :=
  if svalLt (sortVal pd field a) (sortVal pd field b) then
    (if order == "asc" then -1 else 1)
  else if svalLt (sortVal pd field b) (sortVal pd field a) then
    (if order == "asc" then 1 else -1)
  else 0

/-- TodoList.sort (lines 147-171): Array.prototype.sort with a comparator
c is the stable sort that lets a precede b when c a b is at most 0;
List.insertionSort with that relation is exactly that stable sort.  The
live collection is untouched: only the returned list is sorted. -/
def TodoListState.sort (pd : String → Option Int) (st : TodoListState)
    (field order : String) : List Todo :=
  st.todos.insertionSort (fun a b => sortCmp pd field order a b ≤ 0)

/-- The raw value a[field] holds for one of the data model's date-like
fields (dueDate, or a timestamp-named field): a string or null. -/
def dateFieldVal (t : Todo) (field : String) : Option String :=
  if field = "dueDate" then t.dueDate
  else if field = "createdAt" then some t.createdAt
  else if field = "updatedAt" then some t.updatedAt
  else if field = "completedAt" then t.completedAt
  else none

/-- The instant the date branch of the comparator assigns to a todo for a
date-like field whose present, non-empty values parse: an absent or empty
(falsy) value is the epoch instant 0. -/
def dateKey (pd : String → Option Int) (field : String) (t : Todo) : Int :=
  match dateFieldVal t field with
  | none => 0
  | some s => if s = "" then 0 else (pd s).getD 0

/-- The rank the comparator assigns to the priority field: the
priorityOrder object, 0 for anything else. -/
def priorityRank (t : Todo) : Int :=
  if t.priority = "high" then 3
  else if t.priority = "medium" then 2
  else if t.priority = "low" then 1
  else 0

/-- Days from the Unix epoch of a proleptic-Gregorian civil date, the
standard era computation; used only at concrete dates of positive year. -/
def daysFromCivil (y m d : Int) : Int :=
  let y1 := if m ≤ 2 then y - 1 else y
  let era := (if 0 ≤ y1 then y1 else y1 - 399) / 400
  let yoe := y1 - era * 400
  let mp := if 2 < m then m - 3 else m + 9
  let doy := (153 * mp + 2) / 5 + d - 1
  let doe := yoe * 365 + yoe / 4 - yoe / 100 + doy
  era * 146097 + doe - 719468

def digitVal (c : Char) : Option Int :=
  if c.isDigit then some ((c.toNat : Int) - 48) else none

/-- JS Date parsing restricted to plain YYYY-MM-DD strings: UTC midnight
of that civil day in milliseconds since the epoch; none (NaN) for
anything else.  This is the concrete instantiation of the pd parameter
used by witnesses and counterexamples. -/
def parseISODate (s : String) : Option Int :=
  match s.toList with
  | [y1, y2, y3, y4, c1, m1, m2, c2, d1, d2] =>
    if c1 = '-' ∧ c2 = '-' then
      match digitVal y1, digitVal y2, digitVal y3, digitVal y4,
            digitVal m1, digitVal m2, digitVal d1, digitVal d2 with
      | some a, some b, some c, some d, some e, some f, some g, some h =>
        let y := 1000 * a + 100 * b + 10 * c + d
        let mo := 10 * e + f
        let da := 10 * g + h
        if 1 ≤ mo ∧ mo ≤ 12 ∧ 1 ≤ da ∧ da ≤ 31 then
          some (daysFromCivil y mo da * 86400000)
        else none
      | _, _, _, _, _, _, _, _ => none
    else none
  | _ => none

/-- A concrete todo for examples, witnesses and counterexamples. -/
def mkTodo (id title priority : String) (completed : Bool)
    (dueDate : Option String) : Todo where
  id := id
  title := title
  description := ""
  completed := completed
  priority := priority
  dueDate := dueDate
  categories := []
  tags := []
  createdAt := "2024-01-01"
  updatedAt := "2024-01-01"
  completedAt := if completed then some "2024-01-02" else none

/-! Helper lemmas. -/

theorem updateFirst_split (p : Todo → Bool) (f : Todo → Todo) :
    ∀ (l : List Todo) (t : Todo), l.find? p = some t →
    ∃ l1 l2, l = l1 ++ t :: l2 ∧ (∀ u ∈ l1, p u = false) ∧ p t = true ∧
      updateFirst p f l = (l1 ++ f t :: l2, some (f t))
  | [], t, h => by simp [List.find?] at h
  | x :: xs, t, h => by
    by_cases hx : p x
    · rw [List.find?_cons_of_pos _ hx, Option.some.injEq] at h
      subst h
      exact ⟨[], xs, rfl, by simp, hx, by simp [updateFirst, hx]⟩
    · rw [List.find?_cons_of_neg _ hx] at h
      obtain ⟨l1, l2, hsplit, hl1, hpt, hupd⟩ := updateFirst_split p f xs t h
      refine ⟨x :: l1, l2, by simp [hsplit], ?_, hpt, ?_⟩
      · intro u hu
        rcases List.mem_cons.mp hu with rfl | hu
        · simpa using hx
        · exact hl1 u hu
      · simp [updateFirst, hx, hupd]

/-! Claim theorems. -/

/-- C10: TodoList.delete(id) removes every entity whose id equals the
given id (the whole array is filtered, not just the first match), so
findById(id) on the resulting state is absent. -/
theorem claim_C10 : ∀ (st : TodoListState) (id : String),
    (st.delete id).fst.todos = st.todos.filter (fun t => t.id != id) ∧
    (st.delete id).fst.findById id = none := by
  intro st id
  have hfind : (List.filter (fun t => t.id != id) st.todos).find?
      (fun t => t.id == id) = none := by
    apply List.find?_eq_none.mpr
    intro t ht
    have h := List.of_mem_filter ht
    simpa [bne] using h
  constructor
  · unfold TodoListState.delete TodoListState.save
    split <;> rfl
  · unfold TodoListState.delete TodoListState.findById TodoListState.save
    split <;> exact hfind

/-- C7 counterexample: on an entity that is already completed, applying
toggleComplete twice does not clear completedAt back to absent; it ends
as the second toggle's timestamp. -/
theorem claim_C7_counterexample :
    (((mkTodo "a" "t" "medium" true none).toggleComplete "T1").toggleComplete
        "T2").completed = (mkTodo "a" "t" "medium" true none).completed ∧
    (((mkTodo "a" "t" "medium" true none).toggleComplete "T1").toggleComplete
        "T2").completedAt = some "T2" ∧
    ¬ ((((mkTodo "a" "t" "medium" true none).toggleComplete "T1").toggleComplete
        "T2").completedAt = none) := by
  refine ⟨rfl, rfl, ?_⟩
  intro h
  simp [mkTodo, Todo.toggleComplete] at h

/-- C7 (amended): for every entity whose completed is false, applying
toggleComplete twice restores completed to its original value and leaves
completedAt absent. -/
theorem claim_C7_amended : ∀ (t : Todo) (n1 n2 : String), t.completed = false →
    ((t.toggleComplete n1).toggleComplete n2).completed = t.completed ∧
    ((t.toggleComplete n1).toggleComplete n2).completedAt = none := by
  intro t n1 n2 h
  simp [Todo.toggleComplete, h]

/-- C7 witness at a concrete incomplete entity. -/
theorem claim_C7_witness :
    (((mkTodo "w" "t" "medium" false none).toggleComplete "T1").toggleComplete
        "T2").completed = (mkTodo "w" "t" "medium" false none).completed ∧
    (((mkTodo "w" "t" "medium" false none).toggleComplete "T1").toggleComplete
        "T2").completedAt = none :=
  claim_C7_amended (mkTodo "w" "t" "medium" false none) "T1" "T2" rfl

/-- C1 counterexample: the constructor does not enforce the invariant on
an inconsistent input record: completed true with completedAt absent is
stored as given, violating the invariant right after construct. -/
theorem claim_C1_counterexample :
    (Todo.construct { completed := some true } "g" "T").completed = true ∧
    (Todo.construct { completed := some true } "g" "T").completedAt = none ∧
    ¬ completedInv (Todo.construct { completed := some true } "g" "T") := by
  refine ⟨rfl, rfl, ?_⟩
  intro h
  simp [completedInv, Todo.construct, orNull] at h

/-- C1 (amended): toggleComplete establishes the invariant
unconditionally; the constructor yields it exactly when the input record
is consistent (the defaulted completed flag equals the presence of the
normalized completedAt), and update preserves it when the partial record
either touches neither completed nor completedAt or sets both
consistently. -/
theorem claim_C1_amended :
    (∀ (t : Todo) (now : String), completedInv (t.toggleComplete now)) ∧
    (∀ (data : Fields) (genId now : String),
      data.completed.getD false = (orNull data.completedAt).isSome →
      completedInv (Todo.construct data genId now)) ∧
    (∀ (t : Todo) (data : Fields) (now : String), completedInv t →
      ((data.completed = none ∧ data.completedAt = none) ∨
       (∃ b c, data.completed = some b ∧ data.completedAt = some c ∧
         c.isSome = b)) →
      completedInv (t.update data now)) := by
  refine ⟨?_, ?_, ?_⟩
  · intro t now
    simp only [completedInv, Todo.toggleComplete]
    cases t.completed <;> simp
  · intro data genId now h
    simp [completedInv, Todo.construct, h]
  · intro t data now hinv hc
    rcases hc with ⟨h1, h2⟩ | ⟨b, c, h1, h2, h3⟩ <;>
      simp only [completedInv, Todo.update, h1, h2, Option.getD_some,
        Option.getD_none] at hinv ⊢
    · exact hinv
    · exact h3

/-- C1 witness: the empty (hence consistent) field record yields the
invariant through the constructor. -/
theorem claim_C1_witness : completedInv (Todo.construct {} "g" "T") :=
  claim_C1_amended.2.1 {} "g" "T" rfl

/-- C9 counterexample: the constructor stores the given tags verbatim; a
tag without the marker is not normalized. -/
theorem claim_C9_counterexample :
    (Todo.construct { tags := some ["work"] } "g" "T").tags = ["work"] ∧
    jsStartsWith "work" "#" = false := by
  exact ⟨rfl, rfl⟩

/-- C9 (amended): the leading-marker normalization is performed by the
parseTags input helper (which the form layer applies before construction),
not by the entity operations: every element of parseTags output starts
with the marker, while construct and update copy the given tags
verbatim. -/
theorem claim_C9_amended :
    (∀ (s : String), ∀ tag ∈ parseTags s, jsStartsWith tag "#" = true) ∧
    (∀ (data : Fields) (genId now : String),
      (Todo.construct data genId now).tags = data.tags.getD []) ∧
    (∀ (t : Todo) (data : Fields) (now : String),
      (t.update data now).tags = data.tags.getD t.tags) := by
  refine ⟨?_, fun _ _ _ => rfl, fun _ _ _ => rfl⟩
  intro s tag htag
  unfold parseTags at htag
  split at htag
  · simp at htag
  · simp only [List.mem_map] at htag
    obtain ⟨tg, _, rfl⟩ := htag
    by_cases h : jsStartsWith tg "#" = true
    · rw [if_pos h]
      exact h
    · rw [if_neg h]
      unfold jsStartsWith
      rw [show ("#" ++ tg).toList = '#' :: tg.toList from rfl]
      simp [List.isPrefixOf]

/-- C9 witness: a concrete unmarked input comes out of parseTags with the
marker. -/
theorem claim_C9_witness : jsStartsWith "#work" "#" = true :=
  claim_C9_amended.1 "work" "#work" (by
    have h : parseTags "work" = ["#work"] := by decide
    rw [h]
    exact List.mem_singleton.mpr rfl)

/-- C3: StorageService.load is a total function (no input raises): it is
empty when the key is absent and when the stored text fails to parse; it
is empty when the parsed value carries no todos array (non-object parses
included); and it is the stored todos array whenever one is present,
whatever the version field holds (a mismatch only logs). -/
theorem claim_C3 :
    (StorageService.load .absent = [] ∧ StorageService.load .malformed = []) ∧
    (∀ v : JVal, (∀ todos, v.getProp "todos" ≠ some (.jarr todos)) →
      StorageService.load (.parsed v) = []) ∧
    (∀ (fields : List (String × JVal)) (todos : List JVal),
      (fields.find? (fun f => f.fst = "todos")).map Prod.snd =
        some (.jarr todos) →
      StorageService.load (.parsed (.jobj fields)) = todos) := by
  refine ⟨⟨rfl, rfl⟩, ?_, ?_⟩
  · intro v h
    by_cases hc : (!v.truthy || !v.typeofObject) = true
    · simp [StorageService.load, hc]
    · simp only [StorageService.load, if_neg hc]
  · intro fields todos h
    have hprop : JVal.getProp (.jobj fields) "todos" = some (.jarr todos) := by
      simpa [JVal.getProp] using h
    simp [StorageService.load, JVal.truthy, JVal.typeofObject, hprop]

/-- C3 witness: a concrete envelope with a mismatching version still
yields its todos array. -/
theorem claim_C3_witness :
    StorageService.load (.parsed (.jobj
      [("version", .jstr "0.9.0"), ("todos", .jarr [.jstr "x"]),
       ("lastUpdated", .jstr "2024-01-01")])) = [.jstr "x"] :=
  claim_C3.2.2 [("version", .jstr "0.9.0"), ("todos", .jarr [.jstr "x"]),
       ("lastUpdated", .jstr "2024-01-01")] [.jstr "x"] rfl

/-- C2: TodoList.add validates the constructed entity; on failure it
throws the joined error messages and neither the in-memory array nor the
persisted snapshot changes (save is not reached); on success it appends
the entity at the end, persists, and returns it. -/
theorem claim_C2 : ∀ (pd : String → Option Int) (st : TodoListState)
    (data : Fields) (genId now : String),
    (Todo.validate pd (Todo.construct data genId now) ≠ [] →
      (TodoListState.add pd st data genId now).snd =
        .error (String.intercalate ", "
          (Todo.validate pd (Todo.construct data genId now))) ∧
      (TodoListState.add pd st data genId now).fst = st) ∧
    (Todo.validate pd (Todo.construct data genId now) = [] →
      (TodoListState.add pd st data genId now).snd =
        .ok (Todo.construct data genId now) ∧
      (TodoListState.add pd st data genId now).fst.todos =
        st.todos ++ [Todo.construct data genId now] ∧
      (TodoListState.add pd st data genId now).fst.stored =
        st.todos ++ [Todo.construct data genId now]) := by
  intro pd st data genId now
  constructor
  · intro h
    have hne : (Todo.validate pd (Todo.construct data genId now)).isEmpty = false := by
      cases hv : Todo.validate pd (Todo.construct data genId now) with
      | nil => exact absurd hv h
      | cons a l => rfl
    unfold TodoListState.add
    rw [hne]
    exact ⟨rfl, rfl⟩
  · intro h
    have he : (Todo.validate pd (Todo.construct data genId now)).isEmpty = true := by
      rw [h]; rfl
    unfold TodoListState.add TodoListState.save
    rw [he]
    exact ⟨rfl, rfl, rfl⟩

/-- C2 witness: a valid record is appended and returned, an invalid one
(empty title) is rejected with the message and no state change. -/
theorem claim_C2_witness :
    ((TodoListState.add parseISODate { todos := [], stored := [] }
        { title := some "hello" } "g" "NOW").snd =
      .ok (Todo.construct { title := some "hello" } "g" "NOW") ∧
     (TodoListState.add parseISODate { todos := [], stored := [] }
        { title := some "hello" } "g" "NOW").fst.todos =
      [] ++ [Todo.construct { title := some "hello" } "g" "NOW"] ∧
     (TodoListState.add parseISODate { todos := [], stored := [] }
        { title := some "hello" } "g" "NOW").fst.stored =
      [] ++ [Todo.construct { title := some "hello" } "g" "NOW"]) ∧
    ((TodoListState.add parseISODate { todos := [], stored := [] }
        {} "g" "NOW").snd = .error "タイトルは必須です" ∧
     (TodoListState.add parseISODate { todos := [], stored := [] }
        {} "g" "NOW").fst = { todos := [], stored := [] }) := by
  constructor
  · exact (claim_C2 parseISODate { todos := [], stored := [] }
      { title := some "hello" } "g" "NOW").2 (by decide)
  · have h := (claim_C2 parseISODate { todos := [], stored := [] }
      {} "g" "NOW").1 (by decide)
    refine ⟨h.1.trans (congrArg Except.error (by decide)), h.2⟩

/-- C4: when an entity with the id is present, TodoList.update with an
empty title throws a ValidationError; only the targeted (first-matching)
entity changed -- it was mutated in place and is not rolled back, so
validate on it still reports the missing-title message -- every other
entity is untouched and nothing was persisted. -/
theorem claim_C4 : ∀ (pd : String → Option Int) (st : TodoListState)
    (id now : String),
    (st.findById id).isSome →
    ∃ l1 t l2,
      st.todos = l1 ++ t :: l2 ∧ (∀ u ∈ l1, (u.id == id) = false) ∧
      (t.id == id) = true ∧
      (∃ msg, (st.update pd id { title := some "" } now).snd = .error msg) ∧
      (st.update pd id { title := some "" } now).fst.todos =
        l1 ++ (t.update { title := some "" } now) :: l2 ∧
      (st.update pd id { title := some "" } now).fst.stored = st.stored ∧
      "タイトルは必須です" ∈ Todo.validate pd (t.update { title := some "" } now) := by
  intro pd st id now h
  obtain ⟨t, ht⟩ := Option.isSome_iff_exists.mp h
  obtain ⟨l1, l2, hsplit, hl1, hpt, hupd⟩ :=
    updateFirst_split (fun u => u.id == id) (fun u => u.update { title := some "" } now)
      st.todos t ht
  have htitle : (t.update { title := some "" } now).title = "" := rfl
  have hmem : "タイトルは必須です" ∈
      Todo.validate pd (t.update { title := some "" } now) := by
    unfold Todo.validate
    rw [htitle]
    simp
  have hne : (Todo.validate pd (t.update { title := some "" } now)).isEmpty = false := by
    cases hv : Todo.validate pd (t.update { title := some "" } now) with
    | nil => rw [hv] at hmem; exact absurd hmem (List.not_mem_nil _)
    | cons a l => rfl
  refine ⟨l1, t, l2, hsplit, hl1, hpt, ?_, ?_, ?_, hmem⟩ <;>
    unfold TodoListState.update <;> rw [hupd] <;> simp only [TodoListState.save, hne] <;>
    simp

/-- C4 witness at a one-entity collection. -/
theorem claim_C4_witness :
    ∃ l1 t l2,
      (TodoListState.mk [mkTodo "a" "t" "medium" false none] []).todos =
        l1 ++ t :: l2 ∧
      (∀ u ∈ l1, (u.id == "a") = false) ∧ (t.id == "a") = true ∧
      (∃ msg, (TodoListState.update parseISODate
          (TodoListState.mk [mkTodo "a" "t" "medium" false none] [])
          "a" { title := some "" } "NOW").snd = .error msg) ∧
      (TodoListState.update parseISODate
          (TodoListState.mk [mkTodo "a" "t" "medium" false none] [])
          "a" { title := some "" } "NOW").fst.todos =
        l1 ++ (t.update { title := some "" } "NOW") :: l2 ∧
      (TodoListState.update parseISODate
          (TodoListState.mk [mkTodo "a" "t" "medium" false none] [])
          "a" { title := some "" } "NOW").fst.stored =
        (TodoListState.mk [mkTodo "a" "t" "medium" false none] []).stored ∧
      "タイトルは必須です" ∈
        Todo.validate parseISODate (t.update { title := some "" } "NOW") :=
  claim_C4 parseISODate (TodoListState.mk [mkTodo "a" "t" "medium" false none] [])
    "a" "NOW" (by decide)

/-! Generic facts about the stable comparator sort. -/

theorem orderedInsert_congr {α : Type} {r s : α → α → Prop}
    [DecidableRel r] [DecidableRel s] (x : α) :
    ∀ l : List α, (∀ b ∈ l, (r x b ↔ s x b)) →
    l.orderedInsert r x = l.orderedInsert s x
  | [], _ => rfl
  | b :: l, h => by
    simp only [List.orderedInsert]
    by_cases hr : r x b
    · rw [if_pos hr, if_pos ((h b (List.mem_cons_self b l)).mp hr)]
    · rw [if_neg hr, if_neg (fun hs => hr ((h b (List.mem_cons_self b l)).mpr hs)),
        orderedInsert_congr x l (fun b2 hb2 => h b2 (List.mem_cons_of_mem b hb2))]

theorem insertionSort_congr {α : Type} {r s : α → α → Prop}
    [DecidableRel r] [DecidableRel s] :
    ∀ l : List α, (∀ a ∈ l, ∀ b ∈ l, (r a b ↔ s a b)) →
    l.insertionSort r = l.insertionSort s
  | [], _ => rfl
  | x :: xs, h => by
    simp only [List.insertionSort]
    rw [insertionSort_congr xs (fun a ha b hb =>
      h a (List.mem_cons_of_mem x ha) b (List.mem_cons_of_mem x hb))]
    exact orderedInsert_congr x _ (fun b hb =>
      h x (List.mem_cons_self x xs) b
        (List.mem_cons_of_mem x ((List.mem_insertionSort _).mp hb)))

/-- Stability of the comparator sort on an integer key, descending: the
subsequence of elements sharing one key value is unchanged. -/
theorem insertionSort_stable_key {α : Type} (k : α → Int) (m : Int) :
    ∀ l : List α,
      (l.insertionSort (fun a b => k b ≤ k a)).filter (fun x => k x == m) =
      l.filter (fun x => k x == m)
  | [] => rfl
  | x :: xs => by
    have ih := insertionSort_stable_key k m xs
    simp only [List.insertionSort]
    rw [List.orderedInsert_eq_take_drop, List.filter_append]
    have hsplit : (List.insertionSort (fun a b => k b ≤ k a) xs).filter
        (fun y => k y == m) =
        ((List.insertionSort (fun a b => k b ≤ k a) xs).takeWhile
          (fun b => decide ¬ (k b ≤ k x))).filter (fun y => k y == m) ++
        ((List.insertionSort (fun a b => k b ≤ k a) xs).dropWhile
          (fun b => decide ¬ (k b ≤ k x))).filter (fun y => k y == m) := by
      rw [← List.filter_append, List.takeWhile_append_dropWhile]
    by_cases hx : (k x == m) = true
    · have htake : ((List.insertionSort (fun a b => k b ≤ k a) xs).takeWhile
          (fun b => decide ¬ (k b ≤ k x))).filter (fun y => k y == m) = [] := by
        apply List.filter_eq_nil_iff.mpr
        intro y hy
        have hp := List.mem_takeWhile_imp hy
        have hky : ¬ (k y ≤ k x) := by simpa using hp
        have hm : k x = m := by simpa using hx
        simp only [beq_iff_eq]
        omega
      rw [htake, List.nil_append]
      rw [hsplit, htake, List.nil_append] at ih
      simpa [List.filter_cons, hx] using ih
    · have hxf : (k x == m) = false := by simpa using hx
      rw [hsplit] at ih
      simp only [List.filter_cons, hxf, Bool.false_eq_true, if_false]
      exact ih

/-! Evaluating the comparator operands for the fields of interest. -/

/-- For every date-like field whose present, non-empty values parse, the
comparator operand is the instant of dateKey. -/
theorem sortVal_dateField (pd : String → Option Int) (field : String)
    (hf : field = "dueDate" ∨ field = "createdAt" ∨ field = "updatedAt" ∨
      field = "completedAt") (t : Todo)
    (h : ∀ s, dateFieldVal t field = some s → s ≠ "" → (pd s).isSome) :
    sortVal pd field t = .num (.val (dateKey pd field t)) := by
  rcases hf with rfl | rfl | rfl | rfl
  · have hg : t.getField "dueDate" =
        (match t.dueDate with | some s => SVal.str s | none => SVal.nullv) := rfl
    unfold sortVal dateVal prioVal
    rw [if_pos (by decide :
      (jsIncludes "dueDate" "At" || "dueDate" == "dueDate") = true)]
    rw [if_neg (by decide : ¬ (("dueDate" == "priority") = true))]
    rw [hg]
    cases ht : t.dueDate with
    | none => simp [SVal.truthy, dateKey, dateFieldVal, ht]
    | some s =>
      by_cases hs : s = ""
      · subst hs
        simp [SVal.truthy, dateKey, dateFieldVal, ht]
      · have hsome := h s (by simp [dateFieldVal, ht]) hs
        obtain ⟨n, hn⟩ := Option.isSome_iff_exists.mp hsome
        have htr : SVal.truthy (.str s) = true := by simpa [SVal.truthy] using hs
        rw [if_pos htr]
        simp [toInstant, dateKey, dateFieldVal, hn, hs, ht]
  · have hg : t.getField "createdAt" = .str t.createdAt := rfl
    unfold sortVal dateVal prioVal
    rw [if_pos (by decide :
      (jsIncludes "createdAt" "At" || "createdAt" == "dueDate") = true)]
    rw [if_neg (by decide : ¬ (("createdAt" == "priority") = true))]
    rw [hg]
    by_cases hs : t.createdAt = ""
    · rw [hs]
      simp [SVal.truthy, dateKey, dateFieldVal, hs]
    · have hsome := h t.createdAt rfl hs
      obtain ⟨n, hn⟩ := Option.isSome_iff_exists.mp hsome
      have htr : SVal.truthy (.str t.createdAt) = true := by
        simpa [SVal.truthy] using hs
      rw [if_pos htr]
      simp [toInstant, dateKey, dateFieldVal, hn, hs]
  · have hg : t.getField "updatedAt" = .str t.updatedAt := rfl
    unfold sortVal dateVal prioVal
    rw [if_pos (by decide :
      (jsIncludes "updatedAt" "At" || "updatedAt" == "dueDate") = true)]
    rw [if_neg (by decide : ¬ (("updatedAt" == "priority") = true))]
    rw [hg]
    by_cases hs : t.updatedAt = ""
    · rw [hs]
      simp [SVal.truthy, dateKey, dateFieldVal, hs]
    · have hsome := h t.updatedAt rfl hs
      obtain ⟨n, hn⟩ := Option.isSome_iff_exists.mp hsome
      have htr : SVal.truthy (.str t.updatedAt) = true := by
        simpa [SVal.truthy] using hs
      rw [if_pos htr]
      simp [toInstant, dateKey, dateFieldVal, hn, hs]
  · have hg : t.getField "completedAt" =
        (match t.completedAt with | some s => SVal.str s | none => SVal.nullv) := rfl
    unfold sortVal dateVal prioVal
    rw [if_pos (by decide :
      (jsIncludes "completedAt" "At" || "completedAt" == "dueDate") = true)]
    rw [if_neg (by decide : ¬ (("completedAt" == "priority") = true))]
    rw [hg]
    cases ht : t.completedAt with
    | none => simp [SVal.truthy, dateKey, dateFieldVal, ht]
    | some s =>
      by_cases hs : s = ""
      · subst hs
        simp [SVal.truthy, dateKey, dateFieldVal, ht]
      · have hsome := h s (by simp [dateFieldVal, ht]) hs
        obtain ⟨n, hn⟩ := Option.isSome_iff_exists.mp hsome
        have htr : SVal.truthy (.str s) = true := by simpa [SVal.truthy] using hs
        rw [if_pos htr]
        simp [toInstant, dateKey, dateFieldVal, hn, hs, ht]

theorem sortVal_priority (pd : String → Option Int) (t : Todo) :
    sortVal pd "priority" t = .num (.val (priorityRank t)) := by
  have hg : t.getField "priority" = .str t.priority := rfl
  unfold sortVal dateVal prioVal priorityRank
  rw [if_neg (by decide :
    ¬ ((jsIncludes "priority" "At" || "priority" == "dueDate") = true))]
  rw [if_pos (by decide : ("priority" == "priority") = true), hg]

theorem sortCmp_asc_of_vals {pd : String → Option Int} {field : String}
    {a b : Todo} {ka kb : Int}
    (hA : sortVal pd field a = .num (.val ka))
    (hB : sortVal pd field b = .num (.val kb)) :
    sortCmp pd field "asc" a b =
      if ka < kb then -1 else if kb < ka then 1 else 0 := by
  unfold sortCmp
  rw [hA, hB]
  simp only [svalLt, JNum.lt, decide_eq_true_eq]
  simp

theorem sortCmp_desc_of_vals {pd : String → Option Int} {field : String}
    {a b : Todo} {ka kb : Int}
    (hA : sortVal pd field a = .num (.val ka))
    (hB : sortVal pd field b = .num (.val kb)) :
    sortCmp pd field "desc" a b =
      if ka < kb then 1 else if kb < ka then -1 else 0 := by
  unfold sortCmp
  rw [hA, hB]
  simp only [svalLt, JNum.lt, decide_eq_true_eq]
  simp

theorem svalLt_nan_left : ∀ x : SVal, svalLt (.num .nan) x = false := by
  intro x
  cases x with
  | num n => rfl
  | str s => rfl
  | boolv b => rfl
  | nullv => rfl
  | arr l => rfl

theorem svalLt_nan_right : ∀ x : SVal, svalLt x (.num .nan) = false := by
  intro x
  cases x with
  | num n => cases n <;> rfl
  | str s => rfl
  | boolv b => rfl
  | nullv => rfl
  | arr l => rfl

/-- C5 counterexample: in an ascending dueDate sort an absent date does
not come before every parseable one: it is treated as the epoch instant
0, so a 1969 due date (negative instant) sorts before it. -/
theorem claim_C5_counterexample :
    TodoListState.sort parseISODate
      (TodoListState.mk [mkTodo "a" "x" "medium" false (some "1969-12-31"),
                         mkTodo "b" "y" "medium" false none] [])
      "dueDate" "asc" =
      [mkTodo "a" "x" "medium" false (some "1969-12-31"),
       mkTodo "b" "y" "medium" false none] ∧
    parseISODate "1969-12-31" = some (-86400000) ∧
    (mkTodo "b" "y" "medium" false none).dueDate = none ∧
    ¬ (TodoListState.sort parseISODate
      (TodoListState.mk [mkTodo "a" "x" "medium" false (some "1969-12-31"),
                         mkTodo "b" "y" "medium" false none] [])
      "dueDate" "asc" =
      [mkTodo "b" "y" "medium" false none,
       mkTodo "a" "x" "medium" false (some "1969-12-31")]) := by
  exact ⟨by decide, by decide, rfl, by decide⟩

/-- C5 (amended): for every date-like field (dueDate and the
timestamp-named createdAt, updatedAt and completedAt) and both orders,
the sort compares by underlying instant with an absent or empty (falsy)
date treated as the epoch instant 0 -- not as the earliest possible
instant -- provided every present, non-empty value of the field parses;
an unparseable date becomes NaN, for which the comparator reports a tie
against everything. -/
theorem claim_C5_amended : ∀ (pd : String → Option Int) (st : TodoListState)
    (field : String),
    (field = "dueDate" ∨ field = "createdAt" ∨ field = "updatedAt" ∨
      field = "completedAt") →
    (∀ t ∈ st.todos, ∀ s, dateFieldVal t field = some s → s ≠ "" →
      (pd s).isSome) →
    (List.Sorted (fun a b => dateKey pd field a ≤ dateKey pd field b)
        (st.sort pd field "asc") ∧
      (st.sort pd field "asc").Perm st.todos) ∧
    (List.Sorted (fun a b => dateKey pd field b ≤ dateKey pd field a)
        (st.sort pd field "desc") ∧
      (st.sort pd field "desc").Perm st.todos) ∧
    (∀ (order : String) (a b : Todo), sortVal pd field a = .num .nan →
      sortCmp pd field order a b = 0 ∧ sortCmp pd field order b a = 0) := by
  intro pd st field hf h
  have hval : ∀ t ∈ st.todos,
      sortVal pd field t = .num (.val (dateKey pd field t)) :=
    fun t ht => sortVal_dateField pd field hf t (h t ht)
  refine ⟨?_, ?_, ?_⟩
  · have hkey : ∀ a ∈ st.todos, ∀ b ∈ st.todos,
        ((sortCmp pd field "asc" a b ≤ 0) ↔
          (dateKey pd field a ≤ dateKey pd field b)) := by
      intro a ha b hb
      rw [sortCmp_asc_of_vals (hval a ha) (hval b hb)]
      split_ifs with h1 h2 <;> simp <;> omega
    have hcongr : st.sort pd field "asc" =
        st.todos.insertionSort
          (fun a b => dateKey pd field a ≤ dateKey pd field b) := by
      unfold TodoListState.sort
      exact insertionSort_congr st.todos hkey
    constructor
    · rw [hcongr]
      haveI : IsTotal Todo (fun a b => dateKey pd field a ≤ dateKey pd field b) :=
        ⟨fun a b => le_total _ _⟩
      haveI : IsTrans Todo (fun a b => dateKey pd field a ≤ dateKey pd field b) :=
        ⟨fun a b c hab hbc => le_trans hab hbc⟩
      exact List.sorted_insertionSort _ _
    · rw [hcongr]
      exact List.perm_insertionSort _ _
  · have hkey : ∀ a ∈ st.todos, ∀ b ∈ st.todos,
        ((sortCmp pd field "desc" a b ≤ 0) ↔
          (dateKey pd field b ≤ dateKey pd field a)) := by
      intro a ha b hb
      rw [sortCmp_desc_of_vals (hval a ha) (hval b hb)]
      split_ifs with h1 h2 <;> simp <;> omega
    have hcongr : st.sort pd field "desc" =
        st.todos.insertionSort
          (fun a b => dateKey pd field b ≤ dateKey pd field a) := by
      unfold TodoListState.sort
      exact insertionSort_congr st.todos hkey
    constructor
    · rw [hcongr]
      haveI : IsTotal Todo (fun a b => dateKey pd field b ≤ dateKey pd field a) :=
        ⟨fun a b => le_total _ _⟩
      haveI : IsTrans Todo (fun a b => dateKey pd field b ≤ dateKey pd field a) :=
        ⟨fun a b c hab hbc => le_trans hbc hab⟩
      exact List.sorted_insertionSort _ _
    · rw [hcongr]
      exact List.perm_insertionSort _ _
  · intro order a b hA
    constructor <;> unfold sortCmp <;> rw [hA] <;>
      rw [svalLt_nan_left, svalLt_nan_right] <;> rfl

/-- C5 witness at a concrete collection, sorted on the timestamp-named
createdAt field, whose values all parse: both orders and the tie clause
are obtained from the amended theorem. -/
theorem claim_C5_witness :
    (List.Sorted (fun a b => dateKey parseISODate "createdAt" a ≤
          dateKey parseISODate "createdAt" b)
        (TodoListState.sort parseISODate
          (TodoListState.mk [mkTodo "a" "x" "medium" false (some "2024-03-01"),
                             mkTodo "b" "y" "medium" false none] [])
          "createdAt" "asc") ∧
      (TodoListState.sort parseISODate
          (TodoListState.mk [mkTodo "a" "x" "medium" false (some "2024-03-01"),
                             mkTodo "b" "y" "medium" false none] [])
          "createdAt" "asc").Perm
        [mkTodo "a" "x" "medium" false (some "2024-03-01"),
         mkTodo "b" "y" "medium" false none]) ∧
    (List.Sorted (fun a b => dateKey parseISODate "createdAt" b ≤
          dateKey parseISODate "createdAt" a)
        (TodoListState.sort parseISODate
          (TodoListState.mk [mkTodo "a" "x" "medium" false (some "2024-03-01"),
                             mkTodo "b" "y" "medium" false none] [])
          "createdAt" "desc") ∧
      (TodoListState.sort parseISODate
          (TodoListState.mk [mkTodo "a" "x" "medium" false (some "2024-03-01"),
                             mkTodo "b" "y" "medium" false none] [])
          "createdAt" "desc").Perm
        [mkTodo "a" "x" "medium" false (some "2024-03-01"),
         mkTodo "b" "y" "medium" false none]) ∧
    (∀ (order : String) (a b : Todo),
      sortVal parseISODate "createdAt" a = .num .nan →
      sortCmp parseISODate "createdAt" order a b = 0 ∧
      sortCmp parseISODate "createdAt" order b a = 0) :=
  claim_C5_amended parseISODate
    (TodoListState.mk [mkTodo "a" "x" "medium" false (some "2024-03-01"),
                       mkTodo "b" "y" "medium" false none] [])
    "createdAt" (Or.inr (Or.inl rfl))
    (by
      intro t ht s hs hne
      have hcr : t.createdAt = "2024-01-01" := by
        rcases List.mem_cons.mp ht with rfl | ht2
        · rfl
        · rcases List.mem_cons.mp ht2 with rfl | ht3
          · rfl
          · exact absurd ht3 (List.not_mem_nil t)
      have hs2 : s = "2024-01-01" := by
        have h3 : some t.createdAt = some s := hs
        rw [hcr] at h3
        exact (Option.some.injEq _ _ ▸ h3).symm
      subst hs2
      decide)

/-- C8: the priority sort orders by rank high over medium over low (not
lexically), the result is a permutation, ties keep their relative input
order, and the spec's concrete four-task example sorts stably. -/
theorem claim_C8 :
    (∀ (pd : String → Option Int) (st : TodoListState),
      List.Sorted (fun a b => priorityRank b ≤ priorityRank a)
        (st.sort pd "priority" "desc") ∧
      (st.sort pd "priority" "desc").Perm st.todos ∧
      (∀ m : Int, (st.sort pd "priority" "desc").filter
          (fun t => priorityRank t == m) =
        st.todos.filter (fun t => priorityRank t == m))) ∧
    TodoListState.sort parseISODate
      (TodoListState.mk [mkTodo "L" "l" "low" false none,
        mkTodo "H1" "h1" "high" false none, mkTodo "M" "m" "medium" false none,
        mkTodo "H2" "h2" "high" false none] []) "priority" "desc" =
      [mkTodo "H1" "h1" "high" false none, mkTodo "H2" "h2" "high" false none,
       mkTodo "M" "m" "medium" false none, mkTodo "L" "l" "low" false none] := by
  constructor
  · intro pd st
    have hkey : ∀ a ∈ st.todos, ∀ b ∈ st.todos,
        ((sortCmp pd "priority" "desc" a b ≤ 0) ↔
          (priorityRank b ≤ priorityRank a)) := by
      intro a _ b _
      rw [sortCmp_desc_of_vals (sortVal_priority pd a) (sortVal_priority pd b)]
      split_ifs with h1 h2 <;> simp <;> omega
    have hcongr : st.sort pd "priority" "desc" =
        st.todos.insertionSort (fun a b => priorityRank b ≤ priorityRank a) := by
      unfold TodoListState.sort
      exact insertionSort_congr st.todos hkey
    refine ⟨?_, ?_, ?_⟩
    · rw [hcongr]
      haveI : IsTotal Todo (fun a b => priorityRank b ≤ priorityRank a) :=
        ⟨fun a b => le_total _ _⟩
      haveI : IsTrans Todo (fun a b => priorityRank b ≤ priorityRank a) :=
        ⟨fun a b c hab hbc => le_trans hbc hab⟩
      exact List.sorted_insertionSort _ _
    · rw [hcongr]
      exact List.perm_insertionSort _ _
    · intro m
      rw [hcongr]
      exact insertionSort_stable_key priorityRank m st.todos
  · decide

/-- The filter predicate flattened to one boolean conjunction (one
conjunct per early return of the code). -/
theorem matchesCriteria_eq (c : Criteria) (t : Todo) :
    matchesCriteria c t =
      (!(c.status == some "active" && t.completed) &&
       !(c.status == some "completed" && !t.completed) &&
       !(present c.priority && (some t.priority != c.priority)) &&
       !(present c.category && !(t.categories.contains (c.category.getD ""))) &&
       !(present c.tag && !(t.tags.contains (c.tag.getD ""))) &&
       (!(present c.search) ||
         (jsIncludes (jsToLower t.title) (jsToLower (c.search.getD "")) ||
          jsIncludes (jsToLower t.description) (jsToLower (c.search.getD ""))))) := by
  unfold matchesCriteria
  cases hb1 : (c.status == some "active" && t.completed) <;>
  cases hb2 : (c.status == some "completed" && !t.completed) <;>
  cases hb3 : (present c.priority && (some t.priority != c.priority)) <;>
  cases hb4 : (present c.category && !(t.categories.contains (c.category.getD ""))) <;>
  cases hb5 : (present c.tag && !(t.tags.contains (c.tag.getD ""))) <;>
  cases hb6 : (present c.search) <;>
  cases hb7 : (!(jsIncludes (jsToLower t.title) (jsToLower (c.search.getD ""))) &&
      !(jsIncludes (jsToLower t.description) (jsToLower (c.search.getD "")))) <;>
    simp [hb1, hb2, hb3, hb4, hb5, hb6, hb7]
  all_goals
    first
      | simpa using hb7
      | exact Or.imp (fun h => by simpa using h) (fun h => by simpa using h)
          (Bool.and_eq_false_iff.mp hb7)

/-- C6: the filter is the conjunctive subsequence selection the spec
describes -- the code predicate is equivalent to the conjunction of the
supplied criteria (for criteria whose supplied values are non-empty
strings; a supplied empty string is falsy and imposes no constraint),
the filter is List.filter with that predicate in collection order, and
the spec's five-task example returns exactly the three high-priority
incomplete tasks in insertion order. -/
theorem claim_C6 :
    (∀ (c : Criteria) (t : Todo),
      c.priority ≠ some "" → c.category ≠ some "" →
      c.tag ≠ some "" → c.search ≠ some "" →
      (matchesCriteria c t = true ↔ satisfiesCriteria c t)) ∧
    (∀ (st : TodoListState) (c : Criteria),
      st.filter c = st.todos.filter (matchesCriteria c)) ∧
    TodoListState.filter
      (TodoListState.mk [mkTodo "1" "a" "high" false none,
        mkTodo "4" "d" "high" true none, mkTodo "2" "b" "high" false none,
        mkTodo "5" "e" "low" false none, mkTodo "3" "c" "high" false none] [])
      { status := some "active", priority := some "high" } =
      [mkTodo "1" "a" "high" false none, mkTodo "2" "b" "high" false none,
       mkTodo "3" "c" "high" false none] := by
  refine ⟨?_, fun _ _ => rfl, by decide⟩
  intro c t hprio hcat htag hsearch
  obtain ⟨cs, cp, cc, cg, cse⟩ := c
  rw [matchesCriteria_eq]
  simp only [Bool.and_eq_true, Bool.or_eq_true, Bool.not_eq_true']
  unfold satisfiesCriteria
  constructor
  · rintro ⟨⟨⟨⟨⟨hA, hB⟩, hC⟩, hD⟩, hE⟩, hF⟩
    refine ⟨?_, ?_, ?_, ?_, ?_, ?_⟩
    · intro hcs
      subst hcs
      simpa using hA
    · intro hcs
      subst hcs
      simpa using hB
    · intro p hp
      subst hp
      have hp2 : (p != "") = true := by
        simp only [bne_iff_ne, ne_eq]
        intro h
        exact hprio (by rw [h])
      simpa [present, hp2] using hC
    · intro cat hc
      subst hc
      have hc2 : (cat != "") = true := by
        simp only [bne_iff_ne, ne_eq]
        intro h
        exact hcat (by rw [h])
      simpa [present, hc2] using hD
    · intro tg hg
      subst hg
      have hg2 : (tg != "") = true := by
        simp only [bne_iff_ne, ne_eq]
        intro h
        exact htag (by rw [h])
      simpa [present, hg2] using hE
    · intro se hse
      subst hse
      rcases hF with hF1 | hF2
      · have : se = "" := by simpa [present] using hF1
        exact absurd (by rw [this]) hsearch
      · simpa using hF2
  · rintro ⟨s1, s2, s3, s4, s5, s6⟩
    refine ⟨⟨⟨⟨⟨?_, ?_⟩, ?_⟩, ?_⟩, ?_⟩, ?_⟩
    · by_cases hcs : cs = some "active"
      · subst hcs
        simp [s1 rfl]
      · simp [hcs]
    · by_cases hcs : cs = some "completed"
      · subst hcs
        simp [s2 rfl]
      · simp [hcs]
    · cases cp with
      | none => simp [present]
      | some p => simp [s3 p rfl]
    · cases cc with
      | none => simp [present]
      | some cat => simp [s4 cat rfl]
    · cases cg with
      | none => simp [present]
      | some tg => simp [s5 tg rfl]
    · cases cse with
      | none => simp [present]
      | some se =>
        rcases s6 se rfl with hT | hD
        · simp [hT]
        · simp [hD]

/-- C6 witness: the active/high criteria satisfy the hypotheses, and a
matching concrete task satisfies the spec-side conjunction. -/
theorem claim_C6_witness :
    satisfiesCriteria { status := some "active", priority := some "high" }
      (mkTodo "1" "a" "high" false none) :=
  (claim_C6.1 { status := some "active", priority := some "high" }
      (mkTodo "1" "a" "high" false none)
      (by decide) (by decide) (by decide) (by decide)).mp (by decide)

end TodoApp
